import Mathlib

/-!
Shallow embedding of the real-time session core of the Mini-Alexa assistant
(`LiveSession` and the speech-recognition error handler), together with
theorems checking its specification.

Machine numbers are modelled as `ℚ`/`ℤ`/`ℕ`; byte buffers as `List ℕ`
(each entry a byte), binary strings and base64 text as `List Char`/`List ℕ`
of char codes; fallible native calls as `Except`/`Option`.
-/

namespace MiniAlexa

/-! ## PCM codec (floatTo16BitPCM / pcmToAudioBuffer) -/

/-- Truncation toward zero on rationals, as JavaScript ToIntegerOrInfinity
performs before a DataView store. -/
def jsTrunc (q : ℚ) : ℤ := if q < 0 then ⌈q⌉ else ⌊q⌋

/-- Clamping step of floatTo16BitPCM: `Math.max(-1, Math.min(1, x))`. -/
def clampSample (x : ℚ) : ℚ := max (-1) (min 1 x)

/-- One sample of `floatTo16BitPCM`: clamp to [-1,1], scale negatives by
0x8000 and non-negatives by 0x7FFF, truncate as `setInt16` does. -/
def encodeSample (x : ℚ) : ℤ :=
  jsTrunc (if clampSample x < 0 then clampSample x * 32768 else clampSample x * 32767)

/-- The unsigned 16-bit word that `setInt16` actually stores for a sample. -/
def sampleWord (x : ℚ) : ℕ := ((encodeSample x) % 65536).toNat

/-- `floatTo16BitPCM`: little-endian byte buffer of the encoded samples. -/
def floatTo16BitPCM (xs : List ℚ) : List ℕ :=
  xs.flatMap fun x => [sampleWord x % 256, sampleWord x / 256]

/-- Reading one signed 16-bit little-endian value from two bytes, as an
`Int16Array` view over the buffer does. -/
def readInt16LE (b0 b1 : ℕ) : ℤ :=
  if b0 + 256 * b1 < 32768 then ((b0 + 256 * b1 : ℕ) : ℤ)
  else ((b0 + 256 * b1 : ℕ) : ℤ) - 65536

/-- Conversion loop of `pcmToAudioBuffer`: each int16 sample divided by 32768. -/
def pcmToFloats : List ℕ → List ℚ
  | b0 :: b1 :: rest => ((readInt16LE b0 b1 : ℤ) : ℚ) / 32768 :: pcmToFloats rest
  | _ => []

/-- `pcmToAudioBuffer`: the `Int16Array` constructor throws a RangeError on a
buffer of odd byte length, and `createBuffer(1, frames, 24000)` throws a
NotSupportedError when the frame count (half the byte length) is zero;
otherwise the samples are scaled by 1/32768. -/
def pcmToAudioBuffer (bytes : List ℕ) : Except String (List ℚ) :=
  if bytes.length % 2 = 0 then
    if bytes.length / 2 = 0 then .error ("NotSupportedError")
    else .ok (pcmToFloats bytes)
  else .error ("RangeError")

/-! ## Base64 transport codec (arrayBufferToBase64 / base64ToArrayBuffer) -/

/-- The standard base64 alphabet used by `btoa`/`atob`. -/
def b64Alphabet : List Char :=
  "ABCDEFGHIJKLMNOPQRSTUVWXYZabcdefghijklmnopqrstuvwxyz0123456789+/".toList

/-- Character for a 6-bit group. -/
def b64Char (n : ℕ) : Char := b64Alphabet.getD n '?'

/-- Index of a character in the alphabet, `none` for a foreign character. -/
def b64ValAux : List Char → ℕ → Char → Option ℕ
  | [], _, _ => none
  | a :: rest, i, c => if a = c then some i else b64ValAux rest (i + 1) c

/-- Value of one base64 character. -/
def b64Val (c : Char) : Option ℕ := b64ValAux b64Alphabet 0 c

/-- The browser primitive `btoa` on a binary string (list of byte values):
groups of three bytes become four alphabet characters, with `=` padding. -/
def btoa : List ℕ → List Char
  | [] => []
  | [a] => [b64Char (a / 4), b64Char (a % 4 * 16), '=', '=']
  | [a, b] => [b64Char (a / 4), b64Char (a % 4 * 16 + b / 16), b64Char (b % 16 * 4), '=']
  | a :: b :: c :: rest =>
      b64Char (a / 4) :: b64Char (a % 4 * 16 + b / 16) ::
      b64Char (b % 16 * 4 + c / 64) :: b64Char (c % 64) :: btoa rest

/-- The browser primitive `atob`: decodes groups of four characters, with
padding only allowed in a final group; `none` models the thrown
InvalidCharacterError on malformed input. -/
def atob : List Char → Option (List ℕ)
  | [] => some []
  | c1 :: c2 :: c3 :: c4 :: rest =>
      if c3 = '=' then
        if c4 = '=' ∧ rest = [] then
          match b64Val c1, b64Val c2 with
          | some v1, some v2 => some [v1 * 4 + v2 / 16]
          | _, _ => none
        else none
      else if c4 = '=' then
        if rest = [] then
          match b64Val c1, b64Val c2, b64Val c3 with
          | some v1, some v2, some v3 =>
              some [v1 * 4 + v2 / 16, v2 % 16 * 16 + v3 / 4]
          | _, _, _ => none
        else none
      else
        match b64Val c1, b64Val c2, b64Val c3, b64Val c4, atob rest with
        | some v1, some v2, some v3, some v4, some tail =>
            some ((v1 * 4 + v2 / 16) :: (v2 % 16 * 16 + v3 / 4) :: (v3 % 4 * 64 + v4) :: tail)
        | _, _, _, _, _ => none
  | _ => none

/-- `arrayBufferToBase64`: the byte-by-byte `String.fromCharCode` loop builds
the binary string (identified with the byte list), then `btoa` encodes it. -/
def arrayBufferToBase64 (bytes : List ℕ) : List Char := btoa bytes

/-- `base64ToArrayBuffer`: `atob` decodes the text, the `charCodeAt` loop
recovers the bytes; a malformed input makes `atob` throw. -/
def base64ToArrayBuffer (s : List Char) : Except String (List ℕ) :=
  match atob s with
  | some bytes => .ok bytes
  | none => .error ("InvalidCharacterError")

/-! ## Playback scheduler and session state -/

/-- An `AudioBufferSourceNode` as the scheduler sees it: whether its playback
has already finished, and whether `stop()` has been called on it. -/
structure AudioSource where
  finished : Bool
  stopped : Bool
deriving DecidableEq, Inhabited

/-- Playback state of the session: the scheduling cursor `nextStartTime`
and the tracked set of in-flight scheduled sources. -/
structure PlayerState where
  nextStartTime : ℚ
  scheduledSources : List AudioSource
deriving DecidableEq, Inhabited

/-- Scheduling step of `playAudioChunk`: if the cursor has fallen behind the
device clock it is reset to the device clock, and the chunk starts at the
(possibly reset) cursor. -/
def scheduleStart (cursor now : ℚ) : ℚ := if cursor < now then now else cursor

/-- The cursor/start trace of a sequence of enqueued chunks, each given as a
pair (device time at enqueue, duration); returns (start time, duration)
pairs. -/
def schedulePairs (cursor : ℚ) : List (ℚ × ℚ) → List (ℚ × ℚ)
  | [] => []
  | (now, dur) :: rest =>
      (scheduleStart cursor now, dur) :: schedulePairs (scheduleStart cursor now + dur) rest

/-- The base64/PCM decode chain at the head of `playAudioChunk`. -/
def decodeChunk (base64Audio : List Char) : Except String (List ℚ) := do
  let bytes ← base64ToArrayBuffer base64Audio
  pcmToAudioBuffer bytes

/-- `playAudioChunk`: decode the inbound chunk; on any decode error the catch
block drops the chunk and the state is untouched; otherwise schedule it at
the cursor (with starvation reset), advance the cursor by the chunk duration
(`sampleCount / 24000`) and track the new source. -/
def playAudioChunk (s : PlayerState) (base64Audio : List Char) (now : ℚ) : PlayerState :=
  match decodeChunk base64Audio with
  | .error _ => s
  | .ok samples =>
      { nextStartTime := scheduleStart s.nextStartTime now + (samples.length : ℚ) / 24000
        scheduledSources := s.scheduledSources ++ [⟨false, false⟩] }

/-- Raw `AudioBufferSourceNode.stop()`: may throw (e.g. on a node whose
playback already finished). -/
def sourceStopRaw (src : AudioSource) : Except String AudioSource :=
  if src.finished then .error ("InvalidStateError") else .ok { src with stopped := true }

/-- The guarded stop used by `stopAudioPlayback`: `try { source.stop() }
catch (e) {}` — an error leaves the source as it was. -/
def sourceStopCaught (src : AudioSource) : AudioSource :=
  match sourceStopRaw src with
  | .ok s => s
  | .error _ => src

/-- `stopAudioPlayback` (the flush): stop every tracked source (errors
caught), clear the tracking set, reset the cursor to 0. The second component
is the final state of the formerly tracked sources. -/
def stopAudioPlayback (s : PlayerState) : PlayerState × List AudioSource :=
  (⟨0, []⟩, s.scheduledSources.map sourceStopCaught)

/-! ## Message handling -/

/-- A tool call as received from the server (`functionCalls` entry). -/
structure FunctionCall (α : Type) where
  id : String
  name : String
  args : α
deriving DecidableEq, Inhabited

/-- The `ToolCallData` shape handed to the UI dispatcher. -/
structure ToolCallData (α : Type) where
  name : String
  args : α
  id : String
deriving DecidableEq, Inhabited

/-- The object-shaped response payload `{ result }` the transport requires. -/
structure ResponseWrapper (β : Type) where
  result : β
deriving DecidableEq, Inhabited

/-- One entry of the tool-response batch sent back to the server. -/
structure FunctionResponse (β : Type) where
  id : String
  name : String
  response : ResponseWrapper β
deriving DecidableEq, Inhabited

/-- `message.toolCall.functionCalls.map(fc => ({name, args, id}))`. -/
def mkToolCalls {α : Type} (fcs : List (FunctionCall α)) : List (ToolCallData α) :=
  fcs.map fun fc => ⟨fc.name, fc.args, fc.id⟩

/-- `results.map((result, index) => ({id: toolCalls[index].id,
name: toolCalls[index].name, response: {result}}))`. -/
def mkFunctionResponses {α β : Type} [Inhabited α]
    (toolCalls : List (ToolCallData α)) (results : List β) : List (FunctionResponse β) :=
  results.mapIdx fun index result =>
    { id := (toolCalls.getD index default).id
      name := (toolCalls.getD index default).name
      response := ⟨result⟩ }

/-- The tool-call branch of `handleMessage`: build the dispatcher batch, run
the dispatcher, pair each result positionally with its request. -/
def handleToolCall {α β : Type} [Inhabited α] (fcs : List (FunctionCall α))
    (dispatcher : List (ToolCallData α) → List β) : List (FunctionResponse β) :=
  mkFunctionResponses (mkToolCalls fcs) (dispatcher (mkToolCalls fcs))

/-- A caption event as delivered by `onCaption(text, isUser, isComplete)`. -/
structure Caption where
  text : String
  isUser : Bool
  isComplete : Bool
deriving DecidableEq, Inhabited

/-- The fields of a `LiveServerMessage` the handler inspects. -/
structure ServerMessage (α : Type) where
  audioData : Option (List Char)
  interrupted : Bool
  inputTranscription : Option String
  outputTranscription : Option String
  turnComplete : Bool
  toolCall : Option (List (FunctionCall α))

/-- Observable outcome of one `handleMessage` call. -/
structure HandleResult (β : Type) where
  player : PlayerState
  stoppedSources : List AudioSource
  captions : List Caption
  toolResponseBatches : List (List (FunctionResponse β))

/-- `handleMessage`, in source order: (1) play an audio payload if present;
(2) on `interrupted`, flush playback and emit the synthetic caption;
(3)/(4) emit captions for non-empty input/output transcription text;
(5) on a tool-call batch, dispatch it and send exactly one response batch. -/
def handleMessage {α β : Type} [Inhabited α] (s : PlayerState) (now : ℚ)
    (msg : ServerMessage α) (dispatcher : List (ToolCallData α) → List β) : HandleResult β :=
  let s1 := match msg.audioData with
    | some data => playAudioChunk s data now
    | none => s
  let s2 := if msg.interrupted then (stopAudioPlayback s1).1 else s1
  let stopped := if msg.interrupted then (stopAudioPlayback s1).2 else []
  let caps1 : List Caption := if msg.interrupted then [⟨"[Interrupted]", false, true⟩] else []
  let caps2 : List Caption := match msg.inputTranscription with
    | some t => if t ≠ "" then [⟨t, true, msg.turnComplete⟩] else []
    | none => []
  let caps3 : List Caption := match msg.outputTranscription with
    | some t => if t ≠ "" then [⟨t, false, msg.turnComplete⟩] else []
    | none => []
  let batches := match msg.toolCall with
    | some fcs => [handleToolCall fcs dispatcher]
    | none => []
  ⟨s2, stopped, caps1 ++ caps2 ++ caps3, batches⟩

/-! ## Session lifecycle (stop) -/

/-- The connection states reported through `onStateChange`. -/
inductive LiveConnectionState where
  | DISCONNECTED
  | CONNECTING
  | CONNECTED
  | ERROR
deriving DecidableEq, Inhabited

/-- The mutable fields of a `LiveSession` relevant to teardown, plus the last
connection state reported through `onStateChange` (`DISCONNECTED` before any
report, matching the UI's initial state). -/
structure SessionState where
  active : Bool
  reportedState : LiveConnectionState
  player : PlayerState
  inputAudioContext : Option Unit
  outputAudioContext : Option Unit
  processor : Option Unit
  inputSource : Option Unit
  videoInterval : Option ℕ
  videoCanvas : Option Unit
  session : Option Unit
deriving DecidableEq, Inhabited

/-- A freshly constructed `LiveSession`, before `connect()` ever ran: every
handle null, not active, nothing scheduled. -/
def initialSession : SessionState :=
  { active := false
    reportedState := .DISCONNECTED
    player := ⟨0, []⟩
    inputAudioContext := none
    outputAudioContext := none
    processor := none
    inputSource := none
    videoInterval := none
    videoCanvas := none
    session := none }

/-- `stopVideoStream`: clear the timer (if any) and drop the canvas. -/
def stopVideoStream (s : SessionState) : SessionState :=
  { s with videoInterval := none, videoCanvas := none }

/-- `stop()`: clear the active flag, stop video sampling, flush playback,
close and null both audio contexts, disconnect and null the capture nodes,
close (best effort) and null the remote channel. It reports no state change.
The second component is the final state of the formerly scheduled sources. -/
def sessionStop (s : SessionState) : SessionState × List AudioSource :=
  let s1 := stopVideoStream { s with active := false }
  let s2 := { s1 with player := (stopAudioPlayback s1.player).1 }
  ({ s2 with inputAudioContext := none
             outputAudioContext := none
             processor := none
             inputSource := none
             session := none },
   (stopAudioPlayback s1.player).2)

/-- The `onerror` callback of the live connection: report `ERROR` through
`onStateChange`, then `stop()`. -/
def onErrorTeardown (s : SessionState) : SessionState :=
  (sessionStop { s with reportedState := .ERROR }).1

/-! ## Speech recognition error handler (useSpeech.ts) -/

/-- `recognition.onerror`: returns the listening flag after the handler and
the console-error log entries it produced. A `no-speech` or `aborted` error
is swallowed; anything else is logged; listening stops in both branches. -/
def recognitionOnError (error : String) : Bool × List String :=
  if error = "no-speech" ∨ error = "aborted" then (false, [])
  else (false, ["Speech recognition error " ++ error])

/-! ## Concrete states used to instantiate theorems -/

/-- A session state as reached after a successful connect: active, all
handles live, two chunks scheduled (one already finished playing). -/
def connectedSession : SessionState :=
  { active := true
    reportedState := .CONNECTED
    player := ⟨2, [⟨false, false⟩, ⟨true, false⟩]⟩
    inputAudioContext := some ()
    outputAudioContext := some ()
    processor := some ()
    inputSource := some ()
    videoInterval := some 7
    videoCanvas := some ()
    session := some () }

/-- A two-call inbound tool batch. -/
def demoFunctionCalls : List (FunctionCall String) :=
  [⟨"call-1", "search_youtube", "query=song"⟩, ⟨"call-2", "set_reminder", "call mom"⟩]

/-- A dispatcher returning one status string per call. -/
def demoDispatcher (tcs : List (ToolCallData String)) : List String :=
  tcs.map fun tc => "done " ++ tc.name

/-- A server message carrying only the demo tool batch. -/
def demoToolMessage : ServerMessage String :=
  ⟨none, false, none, none, false, some demoFunctionCalls⟩

/-- A server message carrying only an interruption signal. -/
def demoInterruptMessage : ServerMessage String :=
  ⟨none, true, none, none, false, none⟩

/-! ## Helper lemmas -/

theorem getD_of_lt {γ : Type _} (l : List γ) (i : ℕ) (d : γ) (h : i < l.length) :
    l.getD i d = l[i] := by
  simp [List.getD_eq_getElem?_getD, List.getElem?_eq_getElem h]

theorem le_scheduleStart (c t : ℚ) : c ≤ scheduleStart c t := by
  unfold scheduleStart
  split
  · next h => exact le_of_lt h
  · exact le_rfl

theorem scheduleStart_eq_of_le {c t : ℚ} (h : t ≤ c) : scheduleStart c t = c := by
  unfold scheduleStart
  split
  · next h' => exact absurd h (not_le.mpr h')
  · rfl

theorem mkFunctionResponses_getD {α β : Type} [Inhabited α] [Inhabited β]
    (toolCalls : List (ToolCallData α)) (results : List β) (i : ℕ)
    (hi : i < results.length) :
    (mkFunctionResponses toolCalls results).getD i default =
      { id := (toolCalls.getD i default).id
        name := (toolCalls.getD i default).name
        response := ⟨results.getD i default⟩ } := by
  unfold mkFunctionResponses
  rw [getD_of_lt _ _ _ (by simpa [List.length_mapIdx] using hi)]
  rw [List.getElem_mapIdx, getD_of_lt _ _ _ hi]

theorem mkToolCalls_getD {α : Type} [Inhabited α]
    (fcs : List (FunctionCall α)) (i : ℕ) (hi : i < fcs.length) :
    (mkToolCalls fcs).getD i default =
      ⟨(fcs.getD i default).name, (fcs.getD i default).args, (fcs.getD i default).id⟩ := by
  unfold mkToolCalls
  rw [getD_of_lt _ _ _ (by simpa using hi)]
  rw [List.getElem_map, getD_of_lt _ _ _ hi]

/-! ## C1: tool-call batches -/

/-- C1: when an inbound message carries a tool-call batch and the configured
dispatcher returns as many results as there were calls, the session sends
back exactly one tool-response batch of the same size, in which entry i
carries the id and the name of request i (positional order preserved) and
its result value wrapped in the object-shaped payload with a result field. -/
theorem tool_call_response_batch {α β : Type} [Inhabited α] [Inhabited β]
    (fcs : List (FunctionCall α)) (dispatcher : List (ToolCallData α) → List β)
    (hk : (dispatcher (mkToolCalls fcs)).length = fcs.length)
    (s : PlayerState) (now : ℚ) (msg : ServerMessage α)
    (hmsg : msg.toolCall = some fcs) :
    (handleMessage s now msg dispatcher).toolResponseBatches =
      [handleToolCall fcs dispatcher] ∧
    (handleToolCall fcs dispatcher).length = fcs.length ∧
    ∀ i, i < fcs.length →
      ((handleToolCall fcs dispatcher).getD i default).id = (fcs.getD i default).id ∧
      ((handleToolCall fcs dispatcher).getD i default).name = (fcs.getD i default).name ∧
      ((handleToolCall fcs dispatcher).getD i default).response =
        ⟨(dispatcher (mkToolCalls fcs)).getD i default⟩ := by
  refine ⟨by simp [handleMessage, hmsg], ?_, ?_⟩
  · simp [handleToolCall, mkFunctionResponses, List.length_mapIdx, hk]
  · intro i hi
    have hi' : i < (dispatcher (mkToolCalls fcs)).length := by rw [hk]; exact hi
    rw [show handleToolCall fcs dispatcher =
        mkFunctionResponses (mkToolCalls fcs) (dispatcher (mkToolCalls fcs)) from rfl]
    rw [mkFunctionResponses_getD _ _ _ hi', mkToolCalls_getD _ _ hi]
    exact ⟨rfl, rfl, rfl⟩

/-- Closed instance of the tool-call batch theorem on the demo batch. -/
theorem tool_call_response_batch_witness :
    (handleMessage ⟨0, []⟩ 0 demoToolMessage demoDispatcher).toolResponseBatches =
      [handleToolCall demoFunctionCalls demoDispatcher] ∧
    (handleToolCall demoFunctionCalls demoDispatcher).length = demoFunctionCalls.length ∧
    ∀ i, i < demoFunctionCalls.length →
      ((handleToolCall demoFunctionCalls demoDispatcher).getD i default).id =
        (demoFunctionCalls.getD i default).id ∧
      ((handleToolCall demoFunctionCalls demoDispatcher).getD i default).name =
        (demoFunctionCalls.getD i default).name ∧
      ((handleToolCall demoFunctionCalls demoDispatcher).getD i default).response =
        ⟨(demoDispatcher (mkToolCalls demoFunctionCalls)).getD i default⟩ :=
  tool_call_response_batch demoFunctionCalls demoDispatcher rfl ⟨0, []⟩ 0
    demoToolMessage rfl

/-! ## C4: interruption -/

/-- C4: an inbound message carrying interrupted=true and nothing else stops
every tracked chunk (an already-finished chunk raises inside the native stop
call, which is caught, leaving it as it was), empties the tracked in-flight
set, resets the playback cursor to 0, and fires the caption callback exactly
once with ("[Interrupted]", false, true). -/
theorem interruption_flushes_playback {α β : Type} [Inhabited α]
    (s : PlayerState) (now : ℚ) (msg : ServerMessage α)
    (dispatcher : List (ToolCallData α) → List β)
    (hint : msg.interrupted = true) (haud : msg.audioData = none)
    (hin : msg.inputTranscription = none) (hout : msg.outputTranscription = none) :
    (handleMessage s now msg dispatcher).player.scheduledSources = [] ∧
    (handleMessage s now msg dispatcher).player.nextStartTime = 0 ∧
    (handleMessage s now msg dispatcher).captions = [⟨"[Interrupted]", false, true⟩] ∧
    (handleMessage s now msg dispatcher).stoppedSources =
      s.scheduledSources.map sourceStopCaught ∧
    (∀ src ∈ (handleMessage s now msg dispatcher).stoppedSources,
      src.stopped = true ∨ src.finished = true) ∧
    (∀ src : AudioSource, src.finished = true →
      sourceStopRaw src = .error ("InvalidStateError") ∧ sourceStopCaught src = src) := by
  refine ⟨?_, ?_, ?_, ?_, ?_, ?_⟩
  · simp [handleMessage, hint, haud, hin, hout, stopAudioPlayback]
  · simp [handleMessage, hint, haud, hin, hout, stopAudioPlayback]
  · simp [handleMessage, hint, haud, hin, hout]
  · simp [handleMessage, hint, haud, hin, hout, stopAudioPlayback]
  · intro src hsrc
    simp only [handleMessage, hint, haud, hin, hout, stopAudioPlayback] at hsrc
    simp only [if_true, List.mem_map] at hsrc
    obtain ⟨src0, _, rfl⟩ := hsrc
    by_cases hfin : src0.finished = true
    · right
      simp [sourceStopCaught, sourceStopRaw, hfin]
    · left
      simp [sourceStopCaught, sourceStopRaw, hfin]
  · intro src hfin
    exact ⟨by simp [sourceStopRaw, hfin], by simp [sourceStopCaught, sourceStopRaw, hfin]⟩

/-- Closed instance of the interruption theorem: two scheduled chunks, one
already finished. -/
theorem interruption_flushes_playback_witness :
    (handleMessage (β := String) ⟨7, [⟨false, false⟩, ⟨true, false⟩]⟩ 3
        demoInterruptMessage demoDispatcher).player.scheduledSources = [] ∧
    (handleMessage (β := String) ⟨7, [⟨false, false⟩, ⟨true, false⟩]⟩ 3
        demoInterruptMessage demoDispatcher).player.nextStartTime = 0 ∧
    (handleMessage (β := String) ⟨7, [⟨false, false⟩, ⟨true, false⟩]⟩ 3
        demoInterruptMessage demoDispatcher).captions =
      [⟨"[Interrupted]", false, true⟩] ∧
    (handleMessage (β := String) ⟨7, [⟨false, false⟩, ⟨true, false⟩]⟩ 3
        demoInterruptMessage demoDispatcher).stoppedSources =
      ([⟨false, false⟩, ⟨true, false⟩] : List AudioSource).map sourceStopCaught ∧
    (∀ src ∈ (handleMessage (β := String) ⟨7, [⟨false, false⟩, ⟨true, false⟩]⟩ 3
        demoInterruptMessage demoDispatcher).stoppedSources,
      src.stopped = true ∨ src.finished = true) ∧
    (∀ src : AudioSource, src.finished = true →
      sourceStopRaw src = .error ("InvalidStateError") ∧ sourceStopCaught src = src) :=
  interruption_flushes_playback ⟨7, [⟨false, false⟩, ⟨true, false⟩]⟩ 3
    demoInterruptMessage demoDispatcher rfl rfl rfl rfl

/-! ## C5: flush then enqueue -/

/-- C5: a flush resets the cursor to zero, and a chunk enqueued afterwards
at device time t ≥ 0 starts at a time ≥ t — never in the past. -/
theorem flush_then_enqueue (s : PlayerState) (t : ℚ) (ht : 0 ≤ t) :
    (stopAudioPlayback s).1.nextStartTime = 0 ∧
    t ≤ scheduleStart (stopAudioPlayback s).1.nextStartTime t := by
  refine ⟨rfl, ?_⟩
  show t ≤ scheduleStart 0 t
  unfold scheduleStart
  split
  · exact le_rfl
  · next h => exact not_lt.mp h

/-- Closed instance of the flush-then-enqueue theorem. -/
theorem flush_then_enqueue_witness :
    (stopAudioPlayback ⟨9, [⟨false, false⟩]⟩).1.nextStartTime = 0 ∧
    (4 : ℚ) ≤ scheduleStart (stopAudioPlayback ⟨9, [⟨false, false⟩]⟩).1.nextStartTime 4 :=
  flush_then_enqueue ⟨9, [⟨false, false⟩]⟩ 4 (by norm_num)

/-! ## C6: stop() -/

/-- C6 (amended): stop() never raises (each fallible native call inside it
is wrapped), clears the active flag, the playback state and every internal
reference, and a second stop() is a no-op on the session state; stop()
reports no state change, so the reported connection state stays DISCONNECTED
exactly when it already was — in particular before connect() ever ran. -/
theorem stop_idempotent_cleared (s : SessionState)
    (h : s.reportedState = .DISCONNECTED) :
    (sessionStop s).1.active = false ∧
    (sessionStop s).1.inputAudioContext = none ∧
    (sessionStop s).1.outputAudioContext = none ∧
    (sessionStop s).1.processor = none ∧
    (sessionStop s).1.inputSource = none ∧
    (sessionStop s).1.videoInterval = none ∧
    (sessionStop s).1.videoCanvas = none ∧
    (sessionStop s).1.session = none ∧
    (sessionStop s).1.player = ⟨0, []⟩ ∧
    (sessionStop s).1.reportedState = .DISCONNECTED ∧
    (sessionStop (sessionStop s).1).1 = (sessionStop s).1 := by
  exact ⟨rfl, rfl, rfl, rfl, rfl, rfl, rfl, rfl, rfl, h, rfl⟩

/-- Closed instance of the stop() theorem on a fresh session (before
connect() ever ran). -/
theorem stop_idempotent_cleared_witness :
    (sessionStop initialSession).1.active = false ∧
    (sessionStop initialSession).1.inputAudioContext = none ∧
    (sessionStop initialSession).1.outputAudioContext = none ∧
    (sessionStop initialSession).1.processor = none ∧
    (sessionStop initialSession).1.inputSource = none ∧
    (sessionStop initialSession).1.videoInterval = none ∧
    (sessionStop initialSession).1.videoCanvas = none ∧
    (sessionStop initialSession).1.session = none ∧
    (sessionStop initialSession).1.player = ⟨0, []⟩ ∧
    (sessionStop initialSession).1.reportedState = .DISCONNECTED ∧
    (sessionStop (sessionStop initialSession).1).1 = (sessionStop initialSession).1 :=
  stop_idempotent_cleared initialSession rfl

/-- C6 counterexample: after the transport-error teardown reported ERROR,
calling stop() twice in a row leaves the reported connection state at ERROR,
not DISCONNECTED. -/
theorem stop_reported_state_not_disconnected :
    (sessionStop (sessionStop (onErrorTeardown connectedSession)).1).1.reportedState =
      LiveConnectionState.ERROR ∧
    LiveConnectionState.ERROR ≠ LiveConnectionState.DISCONNECTED :=
  ⟨rfl, by decide⟩

/-! ## C2: playback scheduling invariants -/

theorem schedulePairs_head_start (cursor : ℚ) (chunks : List (ℚ × ℚ)) :
    ∀ p ∈ (schedulePairs cursor chunks).head?, cursor ≤ p.1 := by
  cases chunks with
  | nil => simp [schedulePairs]
  | cons q rest =>
    obtain ⟨t, d⟩ := q
    intro p hp
    simp [schedulePairs] at hp
    rw [← hp]
    exact le_scheduleStart cursor t

/-- C2: for a sequence of enqueued chunks, zipping each input (device time,
duration) with its scheduled (start, duration): consecutive entries satisfy
start(i)+d(i) ≤ start(i+1) (a chunk never starts before the previous one
ends — no negative gap), start(i) ≤ start(i+1) (starts are non-decreasing,
durations being non-negative), and whenever the cursor did not starve
(device time at enqueue ≤ previous end) start(i+1) equals the previous end
exactly. -/
theorem playback_schedule_chain (cursor : ℚ) (chunks : List (ℚ × ℚ))
    (hdur : ∀ td ∈ chunks, 0 ≤ td.2) :
    List.Chain'
      (fun p q => p.2.1 + p.2.2 ≤ q.2.1 ∧ p.2.1 ≤ q.2.1 ∧
        (q.1.1 ≤ p.2.1 + p.2.2 → q.2.1 = p.2.1 + p.2.2))
      (chunks.zip (schedulePairs cursor chunks)) := by
  induction chunks generalizing cursor with
  | nil => simp [schedulePairs]
  | cons p1 tl ih =>
    obtain ⟨t1, d1⟩ := p1
    have hd1 : 0 ≤ d1 := hdur (t1, d1) (List.mem_cons_self _ _)
    cases tl with
    | nil => simp [schedulePairs]
    | cons p2 tl2 =>
      obtain ⟨t2, d2⟩ := p2
      rw [show schedulePairs cursor ((t1, d1) :: (t2, d2) :: tl2) =
          (scheduleStart cursor t1, d1) ::
            schedulePairs (scheduleStart cursor t1 + d1) ((t2, d2) :: tl2) from rfl]
      rw [show ((t1, d1) :: (t2, d2) :: tl2).zip
            ((scheduleStart cursor t1, d1) ::
              schedulePairs (scheduleStart cursor t1 + d1) ((t2, d2) :: tl2)) =
          ((t1, d1), (scheduleStart cursor t1, d1)) ::
            ((t2, d2) :: tl2).zip
              (schedulePairs (scheduleStart cursor t1 + d1) ((t2, d2) :: tl2)) from rfl]
      apply List.Chain'.cons'
      · exact ih (scheduleStart cursor t1 + d1)
          (fun td h => hdur td (List.mem_cons_of_mem _ h))
      · intro q hq
        rw [show schedulePairs (scheduleStart cursor t1 + d1) ((t2, d2) :: tl2) =
            (scheduleStart (scheduleStart cursor t1 + d1) t2, d2) ::
              schedulePairs (scheduleStart (scheduleStart cursor t1 + d1) t2 + d2) tl2
            from rfl] at hq
        simp only [List.zip_cons_cons, List.head?_cons, Option.mem_def,
          Option.some.injEq] at hq
        subst hq
        refine ⟨le_scheduleStart _ _, ?_, fun h => scheduleStart_eq_of_le h⟩
        calc scheduleStart cursor t1
            ≤ scheduleStart cursor t1 + d1 := by linarith
          _ ≤ scheduleStart (scheduleStart cursor t1 + d1) t2 := le_scheduleStart _ _

/-- Closed instance of the scheduling theorem on three chunks, the middle
one enqueued after the cursor starved. -/
theorem playback_schedule_chain_witness :
    List.Chain'
      (fun p q => p.2.1 + p.2.2 ≤ q.2.1 ∧ p.2.1 ≤ q.2.1 ∧
        (q.1.1 ≤ p.2.1 + p.2.2 → q.2.1 = p.2.1 + p.2.2))
      (([((0 : ℚ), (1 : ℚ)), (3, 2), (1, 1)]).zip
        (schedulePairs 0 [((0 : ℚ), (1 : ℚ)), (3, 2), (1, 1)])) :=
  playback_schedule_chain 0 [((0 : ℚ), (1 : ℚ)), (3, 2), (1, 1)] (by norm_num)

/-! ## C8: decode errors drop the chunk -/

/-- C8: when the base64/PCM decode chain of an inbound audio chunk fails,
the catch block drops the chunk and playAudioChunk leaves the cursor and the
tracked in-flight set exactly as they were. -/
theorem decode_error_drops_chunk (s : PlayerState) (data : List Char) (now : ℚ)
    (e : String) (h : decodeChunk data = .error e) :
    playAudioChunk s data now = s := by
  unfold playAudioChunk
  rw [h]

/-- Closed instance of the decode-error theorem: a one-character base64
payload makes atob throw, and the player state is untouched. -/
theorem decode_error_drops_chunk_witness :
    playAudioChunk ⟨5, [⟨false, false⟩]⟩ ['A'] 3 = ⟨5, [⟨false, false⟩]⟩ :=
  decode_error_drops_chunk ⟨5, [⟨false, false⟩]⟩ ['A'] 3 ("InvalidCharacterError") rfl

/-! ## PCM codec lemmas -/

theorem clampSample_mem (x : ℚ) : -1 ≤ clampSample x ∧ clampSample x ≤ 1 := by
  unfold clampSample
  exact ⟨le_max_left _ _, max_le (by norm_num) (min_le_left _ _)⟩

theorem encodeSample_range (x : ℚ) :
    -32768 ≤ encodeSample x ∧ encodeSample x ≤ 32767 := by
  obtain ⟨hlo, hhi⟩ := clampSample_mem x
  unfold encodeSample jsTrunc
  by_cases hneg : clampSample x < 0
  · rw [if_pos hneg, if_pos (by nlinarith)]
    constructor
    · calc (-32768 : ℤ) = ⌈((-32768 : ℤ) : ℚ)⌉ := (Int.ceil_intCast _).symm
        _ ≤ ⌈clampSample x * 32768⌉ := Int.ceil_le_ceil (by push_cast; nlinarith)
    · exact Int.ceil_le.mpr (by push_cast; nlinarith)
  · push_neg at hneg
    rw [if_neg (not_lt.mpr hneg), if_neg (by push_neg; nlinarith)]
    have h0 : (0 : ℤ) ≤ ⌊clampSample x * 32767⌋ :=
      Int.le_floor.mpr (by push_cast; nlinarith)
    have hup : ⌊clampSample x * 32767⌋ ≤ ⌊((32767 : ℤ) : ℚ)⌋ :=
      Int.floor_mono (by push_cast; nlinarith)
    have hic : ⌊((32767 : ℤ) : ℚ)⌋ = (32767 : ℤ) := Int.floor_intCast _
    omega

theorem readInt16LE_sampleWord (x : ℚ) :
    readInt16LE (sampleWord x % 256) (sampleWord x / 256) = encodeSample x := by
  obtain ⟨h1, h2⟩ := encodeSample_range x
  unfold readInt16LE sampleWord
  have hw : ((encodeSample x % 65536).toNat : ℤ) = encodeSample x % 65536 :=
    Int.toNat_of_nonneg (Int.emod_nonneg _ (by norm_num))
  omega

theorem encodeSample_close (x : ℚ) :
    |(encodeSample x : ℚ) / 32768 - clampSample x| ≤ 2 / 32768 := by
  obtain ⟨hlo, hhi⟩ := clampSample_mem x
  have key : |(encodeSample x : ℚ) - 32768 * clampSample x| ≤ 2 := by
    unfold encodeSample jsTrunc
    by_cases hneg : clampSample x < 0
    · rw [if_pos hneg, if_pos (by nlinarith)]
      have hc1 : clampSample x * 32768 ≤ (⌈clampSample x * 32768⌉ : ℚ) := Int.le_ceil _
      have hc2 : (⌈clampSample x * 32768⌉ : ℚ) < clampSample x * 32768 + 1 :=
        Int.ceil_lt_add_one _
      rw [abs_le]
      constructor <;> nlinarith
    · push_neg at hneg
      rw [if_neg (not_lt.mpr hneg), if_neg (by push_neg; nlinarith)]
      have hf1 : (⌊clampSample x * 32767⌋ : ℚ) ≤ clampSample x * 32767 := Int.floor_le _
      have hf2 : clampSample x * 32767 - 1 < (⌊clampSample x * 32767⌋ : ℚ) :=
        Int.sub_one_lt_floor _
      rw [abs_le]
      constructor <;> nlinarith
  have hrw : (encodeSample x : ℚ) / 32768 - clampSample x =
      ((encodeSample x : ℚ) - 32768 * clampSample x) / 32768 := by ring
  rw [hrw, abs_div, show |(32768 : ℚ)| = 32768 from abs_of_pos (by norm_num)]
  exact (div_le_div_iff_of_pos_right (by norm_num)).mpr key

theorem pcmToFloats_floatTo16BitPCM (xs : List ℚ) :
    pcmToFloats (floatTo16BitPCM xs) = xs.map fun x => (encodeSample x : ℚ) / 32768 := by
  induction xs with
  | nil => rfl
  | cons x rest ih =>
    rw [show floatTo16BitPCM (x :: rest) =
        sampleWord x % 256 :: sampleWord x / 256 :: floatTo16BitPCM rest from rfl]
    rw [show pcmToFloats (sampleWord x % 256 :: sampleWord x / 256 :: floatTo16BitPCM rest) =
        ((readInt16LE (sampleWord x % 256) (sampleWord x / 256) : ℤ) : ℚ) / 32768 ::
          pcmToFloats (floatTo16BitPCM rest) from rfl]
    rw [readInt16LE_sampleWord, ih]
    rfl

theorem floatTo16BitPCM_length (xs : List ℚ) :
    (floatTo16BitPCM xs).length = 2 * xs.length := by
  induction xs with
  | nil => rfl
  | cons x rest ih =>
    rw [show floatTo16BitPCM (x :: rest) =
        sampleWord x % 256 :: sampleWord x / 256 :: floatTo16BitPCM rest from rfl]
    simp [ih]
    omega

theorem pcmToFloats_bounded : ∀ (bytes : List ℕ), (∀ b ∈ bytes, b < 256) →
    ∀ y ∈ pcmToFloats bytes, -1 ≤ y ∧ y ≤ 32767 / 32768
  | [], _, y, hy => by simp [pcmToFloats] at hy
  | [b], _, y, hy => by simp [pcmToFloats] at hy
  | b0 :: b1 :: rest, hb, y, hy => by
      rw [show pcmToFloats (b0 :: b1 :: rest) =
          ((readInt16LE b0 b1 : ℤ) : ℚ) / 32768 :: pcmToFloats rest from rfl] at hy
      rcases List.mem_cons.mp hy with h | h
      · subst h
        have hb0 : b0 < 256 := hb b0 (by simp)
        have hb1 : b1 < 256 := hb b1 (by simp)
        have hr : -32768 ≤ readInt16LE b0 b1 ∧ readInt16LE b0 b1 ≤ 32767 := by
          unfold readInt16LE
          omega
        have hrq : (-32768 : ℚ) ≤ ((readInt16LE b0 b1 : ℤ) : ℚ) ∧
            ((readInt16LE b0 b1 : ℤ) : ℚ) ≤ 32767 :=
          ⟨by exact_mod_cast hr.1, by exact_mod_cast hr.2⟩
        constructor
        · rw [le_div_iff₀ (by norm_num : (0 : ℚ) < 32768)]
          linarith [hrq.1]
        · rw [div_le_div_iff₀ (by norm_num : (0 : ℚ) < 32768)
            (by norm_num : (0 : ℚ) < 32768)]
          linarith [hrq.2]
      · exact pcmToFloats_bounded rest (fun b h' => hb b (by simp [h'])) y h

/-! ## C3: PCM round trip -/

/-- C3 (amended): encoding a float sample sequence with floatTo16BitPCM and
then decoding with pcmToAudioBuffer succeeds and reproduces each clamped
sample within TWO quantization steps (2/32768). One step is not enough:
non-negative samples are scaled by 32767 on encode but divided by 32768 on
decode, so the round-trip error can exceed 1/32768 (see the
counterexample); for this reason the bound below is 2/32768. -/
theorem pcm_roundtrip_close (xs : List ℚ) (i : ℕ) (hi : i < xs.length) :
    pcmToAudioBuffer (floatTo16BitPCM xs) = .ok (pcmToFloats (floatTo16BitPCM xs)) ∧
    (pcmToFloats (floatTo16BitPCM xs)).length = xs.length ∧
    |(pcmToFloats (floatTo16BitPCM xs)).getD i 0 -
        clampSample (xs.getD i 0)| ≤ 2 / 32768 := by
  refine ⟨?_, ?_, ?_⟩
  · unfold pcmToAudioBuffer
    rw [if_pos (by rw [floatTo16BitPCM_length]; omega),
        if_neg (by rw [floatTo16BitPCM_length]; omega)]
  · rw [pcmToFloats_floatTo16BitPCM]
    simp
  · rw [pcmToFloats_floatTo16BitPCM]
    rw [getD_of_lt _ _ _ (by simpa using hi), List.getElem_map, getD_of_lt _ _ _ hi]
    exact encodeSample_close _

/-- Closed instance of the two-step round-trip bound on a one-sample
sequence. -/
theorem pcm_roundtrip_close_witness :
    pcmToAudioBuffer (floatTo16BitPCM [(1 : ℚ) / 2]) =
      .ok (pcmToFloats (floatTo16BitPCM [(1 : ℚ) / 2])) ∧
    (pcmToFloats (floatTo16BitPCM [(1 : ℚ) / 2])).length = ([(1 : ℚ) / 2]).length ∧
    |(pcmToFloats (floatTo16BitPCM [(1 : ℚ) / 2])).getD 0 0 -
        clampSample (([(1 : ℚ) / 2]).getD 0 0)| ≤ 2 / 32768 :=
  pcm_roundtrip_close [(1 : ℚ) / 2] 0 (by simp)

/-- C3 counterexample: for the sample 131071/131072 (a value representable
exactly as an IEEE single, just below 1) the round trip yields 16383/16384 =
32766/32768, an error of 7/131072, which exceeds one quantization step
1/32768 = 4/131072. -/
theorem pcm_roundtrip_one_step_cex :
    pcmToAudioBuffer (floatTo16BitPCM [(131071 : ℚ) / 131072]) =
      .ok [(16383 : ℚ) / 16384] ∧
    ¬ |(16383 : ℚ) / 16384 - clampSample ((131071 : ℚ) / 131072)| ≤ 1 / 32768 := by
  have hc : clampSample ((131071 : ℚ) / 131072) = (131071 : ℚ) / 131072 := by
    unfold clampSample
    rw [min_eq_right (by norm_num), max_eq_right (by norm_num)]
  constructor
  · have he : encodeSample ((131071 : ℚ) / 131072) = 32766 := by
      unfold encodeSample jsTrunc
      rw [hc, if_neg (by norm_num), if_neg (by norm_num)]
      rw [Int.floor_eq_iff]
      constructor <;> norm_num
    have hs : sampleWord ((131071 : ℚ) / 131072) = 32766 := by
      unfold sampleWord
      rw [he]
      rfl
    have hby : floatTo16BitPCM [(131071 : ℚ) / 131072] =
        [sampleWord ((131071 : ℚ) / 131072) % 256,
         sampleWord ((131071 : ℚ) / 131072) / 256] := rfl
    rw [hby, hs]
    unfold pcmToAudioBuffer
    rw [if_pos (by norm_num), if_neg (by norm_num)]
    congr 1
    unfold pcmToFloats readInt16LE
    norm_num
    rfl
  · rw [hc, abs_of_nonpos (by norm_num)]
    norm_num

/-! ## C7: base64 round trip -/

theorem b64Val_b64Char : ∀ v : Fin 64, b64Val (b64Char v.val) = some v.val := by decide

theorem b64Char_ne_pad : ∀ v : Fin 64, b64Char v.val ≠ '=' := by decide

theorem b64Val_b64Char_of_lt {v : ℕ} (h : v < 64) : b64Val (b64Char v) = some v :=
  b64Val_b64Char ⟨v, h⟩

theorem b64Char_ne_pad_of_lt {v : ℕ} (h : v < 64) : b64Char v ≠ '=' :=
  b64Char_ne_pad ⟨v, h⟩

theorem atob_btoa : ∀ (l : List ℕ), (∀ x ∈ l, x < 256) → atob (btoa l) = some l
  | [], _ => rfl
  | [a], h => by
      have ha : a < 256 := h a (by simp)
      rw [show btoa [a] = [b64Char (a / 4), b64Char (a % 4 * 16), '=', '='] from rfl]
      simp only [atob]
      rw [b64Val_b64Char_of_lt (by omega), b64Val_b64Char_of_lt (by omega)]
      simp
      omega
  | [a, b], h => by
      have ha : a < 256 := h a (by simp)
      have hb : b < 256 := h b (by simp)
      rw [show btoa [a, b] = [b64Char (a / 4), b64Char (a % 4 * 16 + b / 16),
          b64Char (b % 16 * 4), '='] from rfl]
      simp only [atob]
      rw [if_neg (b64Char_ne_pad_of_lt (by omega))]
      rw [b64Val_b64Char_of_lt (by omega), b64Val_b64Char_of_lt (by omega),
          b64Val_b64Char_of_lt (by omega)]
      simp
      constructor
      · omega
      · omega
  | a :: b :: c :: rest, h => by
      have ha : a < 256 := h a (by simp)
      have hb : b < 256 := h b (by simp)
      have hc : c < 256 := h c (by simp)
      have ih : atob (btoa rest) = some rest :=
        atob_btoa rest (fun x hx => h x (by simp [hx]))
      rw [show btoa (a :: b :: c :: rest) =
          b64Char (a / 4) :: b64Char (a % 4 * 16 + b / 16) ::
          b64Char (b % 16 * 4 + c / 64) :: b64Char (c % 64) :: btoa rest from ?_]
      · rw [show atob (b64Char (a / 4) :: b64Char (a % 4 * 16 + b / 16) ::
            b64Char (b % 16 * 4 + c / 64) :: b64Char (c % 64) :: btoa rest) =
            (match b64Val (b64Char (a / 4)), b64Val (b64Char (a % 4 * 16 + b / 16)),
                   b64Val (b64Char (b % 16 * 4 + c / 64)), b64Val (b64Char (c % 64)),
                   atob (btoa rest) with
             | some v1, some v2, some v3, some v4, some tail =>
                some ((v1 * 4 + v2 / 16) :: (v2 % 16 * 16 + v3 / 4) ::
                  (v3 % 4 * 64 + v4) :: tail)
             | _, _, _, _, _ => none) from by
          simp [atob, b64Char_ne_pad_of_lt (show b % 16 * 4 + c / 64 < 64 by omega),
            b64Char_ne_pad_of_lt (show c % 64 < 64 by omega)]]
        rw [b64Val_b64Char_of_lt (by omega), b64Val_b64Char_of_lt (by omega),
            b64Val_b64Char_of_lt (by omega), b64Val_b64Char_of_lt (by omega), ih]
        simp
        refine ⟨by omega, by omega, by omega⟩
      · cases rest <;> rfl

/-- C7: encoding any byte buffer with arrayBufferToBase64 and decoding with
base64ToArrayBuffer reproduces the original buffer byte-for-byte. -/
theorem base64_roundtrip (l : List ℕ) (hb : ∀ x ∈ l, x < 256) :
    base64ToArrayBuffer (arrayBufferToBase64 l) = .ok l := by
  unfold base64ToArrayBuffer arrayBufferToBase64
  rw [atob_btoa l hb]

/-- Closed instance of the base64 round trip on a three-byte buffer. -/
theorem base64_roundtrip_witness :
    base64ToArrayBuffer (arrayBufferToBase64 [0, 255, 77]) = .ok [0, 255, 77] :=
  base64_roundtrip [0, 255, 77] (by decide)

/-! ## C10: decoded samples are bounded -/

/-- C10: whenever pcmToAudioBuffer decodes a byte buffer successfully (an
odd length or a zero frame count makes it throw instead), every float
sample it produced lies in [-1, 32767/32768] (hence in [-1, 1]) no matter
what bytes arrived from the network. -/
theorem decoded_samples_bounded (bytes : List ℕ) (hb : ∀ b ∈ bytes, b < 256)
    (samples : List ℚ) (hok : pcmToAudioBuffer bytes = .ok samples) :
    ∀ y ∈ samples, -1 ≤ y ∧ y ≤ 32767 / 32768 := by
  have hs : samples = pcmToFloats bytes := by
    unfold pcmToAudioBuffer at hok
    split at hok
    · split at hok
      · exact absurd hok (by simp)
      · exact (Except.ok.inj hok).symm
    · exact absurd hok (by simp)
  rw [hs]
  exact pcmToFloats_bounded bytes hb

/-- Closed instance of the sample-range theorem: the first sample decoded
from the buffer holding the two extreme samples -32768 and 32767. -/
theorem decoded_samples_bounded_witness :
    -1 ≤ ((readInt16LE 0 128 : ℤ) : ℚ) / 32768 ∧
    ((readInt16LE 0 128 : ℤ) : ℚ) / 32768 ≤ 32767 / 32768 :=
  decoded_samples_bounded [0, 128, 255, 127] (by decide)
    (pcmToFloats [0, 128, 255, 127]) rfl
    (((readInt16LE 0 128 : ℤ) : ℚ) / 32768)
    (by rw [show pcmToFloats [0, 128, 255, 127] =
          ((readInt16LE 0 128 : ℤ) : ℚ) / 32768 :: pcmToFloats [255, 127] from rfl]
        exact List.mem_cons_self _ _)

/-! ## C9: speech recognition errors -/

/-- C9: a no-speech or aborted recognition error is swallowed (listening
stops, nothing logged); any other error is logged once and listening stops;
the listening flag is false in both branches. -/
theorem recognition_error_branches (e : String) :
    ((e = "no-speech" ∨ e = "aborted") → recognitionOnError e = (false, [])) ∧
    (¬(e = "no-speech" ∨ e = "aborted") →
      recognitionOnError e = (false, ["Speech recognition error " ++ e])) ∧
    (recognitionOnError e).1 = false := by
  unfold recognitionOnError
  by_cases h : e = "no-speech" ∨ e = "aborted" <;> simp [h]

/-- Closed instances of the recognition-error theorem for a swallowed and a
logged error kind. -/
theorem recognition_error_branches_witness :
    recognitionOnError ("no-speech") = (false, []) ∧
    recognitionOnError ("network") = (false, ["Speech recognition error network"]) := by
  refine ⟨(recognition_error_branches ("no-speech")).1 (Or.inl rfl), ?_⟩
  have h := (recognition_error_branches ("network")).2.1 (by decide)
  simpa using h

end MiniAlexa
